import Mathlib

/-!
Shallow embedding of `src/testinit/testinit.c` (the shoelace test-init binary).

The program is a linear sequence of OS calls.  We model one execution as the
list of observable events it produces: lines written to stdout and stderr,
and the OS calls it makes (opendir/readdir/closedir, sync, reboot, pause).
The OS environment is a function from a path to the optional list of
directory entries that opendir/readdir would yield there (`none` models a
failing `opendir`).  The value returned by `reboot` when it returns at all
is a parameter `rc`; executions in which `reboot` never returns are outside
the trace model, and every claim about post-reboot behaviour quantifies over
the executions in which it did return.
-/

namespace Testinit

/-- `d_type` discriminators from `<dirent.h>`. -/
def DT_UNKNOWN : Nat := 0

def DT_FIFO : Nat := 1

def DT_CHR : Nat := 2

def DT_DIR : Nat := 4

def DT_BLK : Nat := 6

def DT_REG : Nat := 8

def DT_LNK : Nat := 10

def DT_SOCK : Nat := 12

def DT_WHT : Nat := 14

/-- The `RB_POWER_OFF` command of `reboot(2)` (`LINUX_REBOOT_CMD_POWER_OFF`). -/
def RB_POWER_OFF : Nat := 0x4321fedc

/-- One record yielded by `readdir`: a name and a `d_type` discriminator. -/
structure Dirent where
  d_name : String
  d_type : Nat
deriving DecidableEq, Repr

/-- Observable events of one execution of the program. -/
inductive Event where
  | out (s : String)
  | err (s : String)
  | opendirEv (path : String) (ok : Bool)
  | readdirEv (res : Option Dirent)
  | closedirEv
  | syncEv
  | rebootEv (cmd : Nat)
  | pauseEv
deriving DecidableEq, Repr

/-- The OS environment seen through `opendir`/`readdir`: for each path,
`none` when `opendir` fails, otherwise the finite entry stream `readdir`
yields before returning `NULL`. -/
def Fs : Type := String → Option (List Dirent)

/-- The line `printf("%s%s\n", ent->d_name, ent->d_type == DT_DIR ? "/" : "")`
produces for one entry. -/
def entryLine (e : Dirent) : String :=
  (e.d_name ++ (if e.d_type = DT_DIR then "/" else "")) ++ "\n"

/-- The `while ((ent = readdir(dir)))` loop of `showdir`: each yielded entry
is printed, and the final `NULL` result ends the loop. -/
def readLoop : List Dirent → List Event
  | [] => [Event.readdirEv none]
  | e :: rest => Event.readdirEv (some e) :: Event.out (entryLine e) :: readLoop rest

/-- The `showdir` function: open the directory; on failure report to stderr
and return; on success print the header, run the read loop, close the
handle. -/
def showdir (fs : Fs) (path : String) : List Event :=
  match fs path with
  | none =>
      [Event.opendirEv path false, Event.err (("Failed to open " ++ path) ++ "\n")]
  | some es =>
      Event.opendirEv path true ::
        Event.out (("Contents of " ++ path) ++ ":\n") ::
          (readLoop es ++ [Event.closedirEv])

/-- The line `printf("[%d] = \"%s\"\n", i, argv[i])` produces. -/
def argLine (i : Nat) (a : String) : String :=
  (((("[" ++ toString i) ++ "] = ") ++ "\x22") ++ a) ++ "\x22\n"

/-- The `for (int i = 0; i < argc; ++i)` loop of `main`, started at index
`i` with the remaining arguments. -/
def argvLoop : Nat → List String → List Event
  | _, [] => []
  | i, a :: rest => Event.out (argLine i a) :: argvLoop (i + 1) rest

/-- The `if (rc) printf("reboot() returned %d\n", rc);` statement. -/
def rebootReport (rc : Int) : List Event :=
  if rc = 0 then [] else [Event.out (("reboot() returned " ++ toString rc) ++ "\n")]

/-- The body of `main`, from the greeting up to `pause()`, for an execution
in which `reboot` returned the value `rc`. -/
def mainTrace (argv : List String) (fs : Fs) (rc : Int) : List Event :=
  Event.out ("HELLO WORLD!\n") ::
    Event.out ("argv:\n") ::
      (argvLoop 0 argv ++
        (showdir fs ("/") ++
          (Event.out ("\n") ::
            (showdir fs ("/bin") ++
              (Event.syncEv ::
                Event.rebootEv RB_POWER_OFF ::
                  (rebootReport rc ++ [Event.pauseEv]))))))

/-- Extract the stdout payload of an event. -/
def outString? : Event → Option String
  | Event.out s => some s
  | _ => none

/-- Extract the stderr payload of an event. -/
def errString? : Event → Option String
  | Event.err s => some s
  | _ => none

/-- Extract the entry a successful `readdir` call yielded. -/
def readEntry? : Event → Option Dirent
  | Event.readdirEv (some e) => some e
  | _ => none

/-- The lines a trace writes to stdout, in order. -/
def outLines (t : List Event) : List String := t.filterMap outString?

/-- The lines a trace writes to stderr, in order. -/
def errLines (t : List Event) : List String := t.filterMap errString?

/-- Whether an event is the release of a directory handle. -/
def isClosedir : Event → Bool
  | Event.closedirEv => true
  | _ => false

/-- Whether a stdout line is the reboot-failure report. -/
def isRebootMsg : Event → Bool
  | Event.out s => String.isPrefixOf ("reboot() returned ") s
  | _ => false

/-- A `d_type` value that is known (one of the `DT_` constants) and not a
directory. -/
def knownNonDirType (t : Nat) : Prop :=
  t = DT_FIFO ∨ t = DT_CHR ∨ t = DT_BLK ∨ t = DT_REG ∨
    t = DT_LNK ∨ t = DT_SOCK ∨ t = DT_WHT

/-- The part of `mainTrace` that precedes the `sync()` call. -/
def mainPrefix (argv : List String) (fs : Fs) : List Event :=
  Event.out ("HELLO WORLD!\n") ::
    Event.out ("argv:\n") ::
      (argvLoop 0 argv ++
        (showdir fs ("/") ++
          (Event.out ("\n") :: showdir fs ("/bin"))))

/-- Example environment in which every `opendir` fails. -/
def fsEmpty : Fs := fun _ => none

/-- Example entry list: a directory, a regular file, and an entry whose
`d_type` is an unrecognized value. -/
def exEntries : List Dirent :=
  [⟨"bin", DT_DIR⟩, ⟨"init", DT_REG⟩, ⟨"mystery", 3⟩]

/-- Example environment with entries at the root and nothing else. -/
def fsEx : Fs := fun p => if p = "/" then some exEntries else none

/-- Example environment whose root directory yields zero entries. -/
def fsNil : Fs := fun p => if p = "/" then some [] else none

/- ------------------------------------------------------------------ -/
/- Helper lemmas                                                      -/
/- ------------------------------------------------------------------ -/

theorem take_length_append {α : Type} (l r : List α) : (l ++ r).take l.length = l := by
  induction l with
  | nil => rfl
  | cons x xs ih => simp [ih]

theorem getElem?_append_length {α : Type} (l : List α) (a : α) (r : List α) :
    (l ++ a :: r)[l.length]? = some a := by
  induction l with
  | nil => simp
  | cons x xs ih => simpa using ih

theorem argvLoop_length (i : Nat) (l : List String) :
    (argvLoop i l).length = l.length := by
  induction l generalizing i with
  | nil => rfl
  | cons a rest ih => simp [argvLoop, ih]

theorem argvLoop_getElem? (l : List String) (i k : Nat) :
    (argvLoop i l)[k]? = Option.map (fun a => Event.out (argLine (i + k) a)) l[k]? := by
  induction l generalizing i k with
  | nil => simp [argvLoop]
  | cons a rest ih =>
    cases k with
    | zero => simp [argvLoop]
    | succ k =>
      have h : i + (k + 1) = (i + 1) + k := by omega
      simp [argvLoop, h, ih]

theorem outLines_readLoop (es : List Dirent) :
    outLines (readLoop es) = es.map entryLine := by
  induction es with
  | nil => rfl
  | cons e rest ih => simp [readLoop, outLines, outString?] at ih ⊢; exact ih

theorem errLines_readLoop (es : List Dirent) : errLines (readLoop es) = [] := by
  induction es with
  | nil => rfl
  | cons e rest ih => simp [readLoop, errLines, errString?] at ih ⊢; exact ih

theorem countP_closedir_readLoop (es : List Dirent) :
    (readLoop es).countP isClosedir = 0 := by
  induction es with
  | nil => rfl
  | cons e rest ih => simp [readLoop, List.countP_cons, isClosedir, ih]

theorem visited_readLoop (es : List Dirent) :
    (readLoop es).filterMap readEntry? = es := by
  induction es with
  | nil => rfl
  | cons e rest ih => simp [readLoop, readEntry?, ih]

theorem mem_out_readLoop {e : Dirent} {es : List Dirent} (h : e ∈ es) :
    Event.out (entryLine e) ∈ readLoop es := by
  induction es with
  | nil => cases h
  | cons x rest ih =>
    rcases List.mem_cons.mp h with h1 | h1
    · subst h1; simp [readLoop]
    · show Event.out (entryLine e) ∈
        Event.readdirEv (some x) :: Event.out (entryLine x) :: readLoop rest
      exact List.mem_cons_of_mem _ (List.mem_cons_of_mem _ (ih h1))

theorem outLines_showdir_some {fs : Fs} {path : String} {es : List Dirent}
    (h : fs path = some es) :
    outLines (showdir fs path) = (("Contents of " ++ path) ++ ":\n") :: es.map entryLine := by
  have h1 : outLines (readLoop es) = es.map entryLine := outLines_readLoop es
  simp [showdir, h, outLines, outString?, List.filterMap_append] at h1 ⊢
  exact h1

/- ------------------------------------------------------------------ -/
/- Claims                                                             -/
/- ------------------------------------------------------------------ -/

/-- C1: for every argument vector of length N, the trace of `main` contains,
right after the two fixed header lines, exactly N argument lines in original
order, the i-th being `[<i>] = "<arg_i>"` for the zero-based index i. -/
theorem argv_lines_exact (argv : List String) (fs : Fs) (rc : Int) :
    ((mainTrace argv fs rc).drop 2).take argv.length = argvLoop 0 argv ∧
    (argvLoop 0 argv).length = argv.length ∧
    ∀ i : Nat, (argvLoop 0 argv)[i]? =
      Option.map (fun a => Event.out (argLine i a)) argv[i]? := by
  refine ⟨?_, argvLoop_length 0 argv, ?_⟩
  · have h1 : (mainTrace argv fs rc).drop 2 =
        argvLoop 0 argv ++
          (showdir fs ("/") ++
            (Event.out ("\n") ::
              (showdir fs ("/bin") ++
                (Event.syncEv ::
                  Event.rebootEv RB_POWER_OFF ::
                    (rebootReport rc ++ [Event.pauseEv]))))) := rfl
    rw [h1, ← argvLoop_length 0 argv, take_length_append]
  · intro i
    simpa using argvLoop_getElem? argv 0 i

/-- C1 witness: concrete run with two arguments. -/
theorem argv_lines_exact_witness :
    ((mainTrace ["prog", "-x"] fsEmpty 0).drop 2).take 2 = argvLoop 0 ["prog", "-x"] ∧
    (argvLoop 0 ["prog", "-x"]).length = 2 ∧
    ∀ i : Nat, (argvLoop 0 ["prog", "-x"])[i]? =
      Option.map (fun a => Event.out (argLine i a)) (["prog", "-x"] : List String)[i]? :=
  argv_lines_exact ["prog", "-x"] fsEmpty 0

/-- C2 counterexample: in the execution where `reboot` returns 0, no
`reboot() returned <code>` line is printed at all, so the message is not
printed on every return of the power-off request. -/
theorem reboot_msg_not_on_zero_return :
    Event.out (("reboot() returned " ++ toString (0 : Int)) ++ "\n") ∉
      mainTrace ["p"] fsEmpty 0 ∧
    (mainTrace ["p"] fsEmpty 0).all (fun e => ! isRebootMsg e) = true :=
  ⟨by decide, by decide⟩

/-- C2 (amended): whenever the power-off request returns a nonzero status
code, the program prints `reboot() returned <code>` with that code. -/
theorem reboot_msg_on_nonzero (argv : List String) (fs : Fs) (rc : Int) (h : rc ≠ 0) :
    Event.out (("reboot() returned " ++ toString rc) ++ "\n") ∈ mainTrace argv fs rc := by
  simp [mainTrace, rebootReport, h]

/-- C2 witness: the amended claim at status code 5. -/
theorem reboot_msg_on_nonzero_witness :
    (5 : Int) ≠ 0 ∧
    Event.out (("reboot() returned " ++ toString (5 : Int)) ++ "\n") ∈
      mainTrace ["p"] fsEmpty 5 :=
  ⟨by decide, reboot_msg_on_nonzero ["p"] fsEmpty 5 (by decide)⟩

/-- C3: in every execution in which the power-off request returns — whatever
the status code — the trace continues past the reboot event and ends at the
`pause()` wait; the wait is the last event on every such path. -/
theorem pause_follows_reboot (argv : List String) (fs : Fs) (rc : Int) :
    (∃ l1 l2, mainTrace argv fs rc =
        l1 ++ (Event.rebootEv RB_POWER_OFF :: (l2 ++ [Event.pauseEv]))) ∧
    (mainTrace argv fs rc).getLast? = some Event.pauseEv := by
  constructor
  · refine ⟨mainPrefix argv fs ++ [Event.syncEv], rebootReport rc, ?_⟩
    simp [mainTrace, mainPrefix]
  · have h : mainTrace argv fs rc =
        (mainPrefix argv fs ++
          (Event.syncEv :: Event.rebootEv RB_POWER_OFF :: rebootReport rc)) ++
          [Event.pauseEv] := by
      simp [mainTrace, mainPrefix]
    rw [h, List.getLast?_concat]

/-- C3 witness: concrete run with reboot returning 1. -/
theorem pause_follows_reboot_witness :
    (∃ l1 l2, mainTrace ["p"] fsEmpty 1 =
        l1 ++ (Event.rebootEv RB_POWER_OFF :: (l2 ++ [Event.pauseEv]))) ∧
    (mainTrace ["p"] fsEmpty 1).getLast? = some Event.pauseEv :=
  pause_follows_reboot ["p"] fsEmpty 1

/-- C4: when opening a directory fails, `showdir` produces exactly one
stderr line, no stdout lines for that path, and returns so that `main`
still reaches its later steps. -/
theorem showdir_open_failure (path : String) (argv : List String) (fs : Fs) (rc : Int)
    (h : fs path = none) :
    showdir fs path =
      [Event.opendirEv path false, Event.err (("Failed to open " ++ path) ++ "\n")] ∧
    outLines (showdir fs path) = [] ∧
    errLines (showdir fs path) = [("Failed to open " ++ path) ++ "\n"] ∧
    Event.syncEv ∈ mainTrace argv fs rc ∧ Event.pauseEv ∈ mainTrace argv fs rc := by
  refine ⟨?_, ?_, ?_, ?_, ?_⟩ <;>
    simp [showdir, h, outLines, errLines, outString?, errString?, mainTrace]

/-- C4 witness: concrete failing path. -/
theorem showdir_open_failure_witness :
    showdir fsEmpty ("/nope") =
      [Event.opendirEv ("/nope") false, Event.err (("Failed to open " ++ "/nope") ++ "\n")] ∧
    outLines (showdir fsEmpty ("/nope")) = [] ∧
    errLines (showdir fsEmpty ("/nope")) = [("Failed to open " ++ "/nope") ++ "\n"] ∧
    Event.syncEv ∈ mainTrace ["p"] fsEmpty 0 ∧ Event.pauseEv ∈ mainTrace ["p"] fsEmpty 0 :=
  showdir_open_failure ("/nope") ["p"] fsEmpty 0 rfl

/-- C5: in a successful listing the stdout lines are the header followed by
one line per entry; an entry of directory type is printed as its name
suffixed with `/`, an entry of a known non-directory type as its bare
name. -/
theorem showdir_entry_suffixes (path : String) (es : List Dirent) (fs : Fs)
    (h : fs path = some es) :
    outLines (showdir fs path) = (("Contents of " ++ path) ++ ":\n") :: es.map entryLine ∧
    ∀ e ∈ es,
      (e.d_type = DT_DIR → entryLine e = (e.d_name ++ "/") ++ "\n") ∧
      (knownNonDirType e.d_type → entryLine e = e.d_name ++ "\n") := by
  refine ⟨outLines_showdir_some h, ?_⟩
  intro e _
  constructor
  · intro ht
    simp [entryLine, ht]
  · intro ht
    have hne : e.d_type ≠ DT_DIR := by
      rcases ht with h1 | h1 | h1 | h1 | h1 | h1 | h1 <;> rw [h1] <;> decide
    simp [entryLine, hne]

/-- C5 witness: a directory entry gets the slash, a regular file does not. -/
theorem showdir_entry_suffixes_witness :
    outLines (showdir fsEx ("/")) =
      (("Contents of " ++ "/") ++ ":\n") :: exEntries.map entryLine ∧
    entryLine ⟨"bin", DT_DIR⟩ = (("bin" : String) ++ "/") ++ "\n" ∧
    entryLine ⟨"init", DT_REG⟩ = ("init" : String) ++ "\n" := by
  refine ⟨(showdir_entry_suffixes ("/") exEntries fsEx rfl).1, ?_, ?_⟩
  · exact ((showdir_entry_suffixes ("/") exEntries fsEx rfl).2 ⟨"bin", DT_DIR⟩
      (by decide)).1 rfl
  · exact ((showdir_entry_suffixes ("/") exEntries fsEx rfl).2 ⟨"init", DT_REG⟩
      (by decide)).2 (by unfold knownNonDirType; decide)

/-- C6: `main` performs its observable steps in a fixed order — greeting,
argv lines, root listing, blank line, `/bin` listing, `sync`, `reboot`,
failure report, `pause` — and the sync event strictly precedes the reboot
event in the trace. -/
theorem main_step_order (argv : List String) (fs : Fs) (rc : Int) :
    mainTrace argv fs rc =
      [Event.out ("HELLO WORLD!\n"), Event.out ("argv:\n")] ++
        (argvLoop 0 argv ++
          (showdir fs ("/") ++
            ([Event.out ("\n")] ++
              (showdir fs ("/bin") ++
                ([Event.syncEv] ++
                  ([Event.rebootEv RB_POWER_OFF] ++
                    (rebootReport rc ++ [Event.pauseEv]))))))) ∧
    (mainTrace argv fs rc)[(mainPrefix argv fs).length]? = some Event.syncEv ∧
    (mainTrace argv fs rc)[(mainPrefix argv fs).length + 1]? =
      some (Event.rebootEv RB_POWER_OFF) ∧
    (mainPrefix argv fs).length < (mainPrefix argv fs).length + 1 := by
  have h2 : mainTrace argv fs rc =
      mainPrefix argv fs ++
        (Event.syncEv ::
          (Event.rebootEv RB_POWER_OFF :: (rebootReport rc ++ [Event.pauseEv]))) := by
    simp [mainTrace, mainPrefix]
  have h3 : mainTrace argv fs rc =
      (mainPrefix argv fs ++ [Event.syncEv]) ++
        (Event.rebootEv RB_POWER_OFF :: (rebootReport rc ++ [Event.pauseEv])) := by
    simp [mainTrace, mainPrefix]
  have h4 : (mainPrefix argv fs ++ [Event.syncEv]).length =
      (mainPrefix argv fs).length + 1 := by
    simp
  refine ⟨rfl, ?_, ?_, Nat.lt_succ_self _⟩
  · rw [h2]
    exact getElem?_append_length _ _ _
  · rw [h3, ← h4]
    exact getElem?_append_length _ _ _

/-- C6 witness: the fixed order at a concrete run. -/
theorem main_step_order_witness :
    mainTrace ["p"] fsEx 0 =
      [Event.out ("HELLO WORLD!\n"), Event.out ("argv:\n")] ++
        (argvLoop 0 ["p"] ++
          (showdir fsEx ("/") ++
            ([Event.out ("\n")] ++
              (showdir fsEx ("/bin") ++
                ([Event.syncEv] ++
                  ([Event.rebootEv RB_POWER_OFF] ++
                    (rebootReport 0 ++ [Event.pauseEv]))))))) ∧
    (mainTrace ["p"] fsEx 0)[(mainPrefix ["p"] fsEx).length]? = some Event.syncEv ∧
    (mainTrace ["p"] fsEx 0)[(mainPrefix ["p"] fsEx).length + 1]? =
      some (Event.rebootEv RB_POWER_OFF) ∧
    (mainPrefix ["p"] fsEx).length < (mainPrefix ["p"] fsEx).length + 1 :=
  main_step_order ["p"] fsEx 0

/-- C7: when opening succeeds, `showdir` releases the directory handle
exactly once, as the last action before returning, and visits each entry
yielded by the handle exactly once, in order. -/
theorem showdir_handle_discipline (fs : Fs) (path : String) (es : List Dirent)
    (h : fs path = some es) :
    (showdir fs path).countP isClosedir = 1 ∧
    (showdir fs path).getLast? = some Event.closedirEv ∧
    (showdir fs path).filterMap readEntry? = es := by
  refine ⟨?_, ?_, ?_⟩
  · simp [showdir, h, List.countP_cons, List.countP_append, isClosedir,
      countP_closedir_readLoop]
  · have h1 : showdir fs path =
        (Event.opendirEv path true ::
          Event.out (("Contents of " ++ path) ++ ":\n") :: readLoop es) ++
          [Event.closedirEv] := by
      simp [showdir, h]
    rw [h1, List.getLast?_concat]
  · simp [showdir, h, List.filterMap_cons, List.filterMap_append, readEntry?,
      visited_readLoop]

/-- C7 witness: the handle discipline at a concrete listing. -/
theorem showdir_handle_discipline_witness :
    (showdir fsEx ("/")).countP isClosedir = 1 ∧
    (showdir fsEx ("/")).getLast? = some Event.closedirEv ∧
    (showdir fsEx ("/")).filterMap readEntry? = exEntries :=
  showdir_handle_discipline fsEx ("/") exEntries rfl

/-- C8: listing a directory that yields zero entries prints exactly the
header line on stdout and nothing on stderr. -/
theorem showdir_empty_dir (path : String) (fs : Fs) (h : fs path = some []) :
    outLines (showdir fs path) = [("Contents of " ++ path) ++ ":\n"] ∧
    errLines (showdir fs path) = [] := by
  constructor <;>
    simp [showdir, h, outLines, errLines, readLoop, outString?, errString?]

/-- C8 witness: the empty root listing. -/
theorem showdir_empty_dir_witness :
    outLines (showdir fsNil ("/")) = [("Contents of " ++ "/") ++ ":\n"] ∧
    errLines (showdir fsNil ("/")) = [] :=
  showdir_empty_dir ("/") fsNil rfl

/-- C9: the reboot-failure report is printed exactly when the returned
status code is nonzero — it is empty at status 0 and the single message
line otherwise — and in both cases the trace proceeds to the `pause`
event right after the report. -/
theorem reboot_report_iff_nonzero (argv : List String) (fs : Fs) (rc : Int) :
    (rebootReport rc = [] ↔ rc = 0) ∧
    (rc ≠ 0 →
      rebootReport rc = [Event.out (("reboot() returned " ++ toString rc) ++ "\n")]) ∧
    ∃ l, mainTrace argv fs rc = l ++ (rebootReport rc ++ [Event.pauseEv]) := by
  refine ⟨?_, ?_, ?_⟩
  · unfold rebootReport
    by_cases h : rc = 0 <;> simp [h]
  · intro h
    simp [rebootReport, h]
  · refine ⟨mainPrefix argv fs ++ [Event.syncEv, Event.rebootEv RB_POWER_OFF], ?_⟩
    simp [mainTrace, mainPrefix]

/-- C9 witness: the report at nonzero status 3 and at status 0. -/
theorem reboot_report_iff_nonzero_witness :
    rebootReport 3 = [Event.out (("reboot() returned " ++ toString (3 : Int)) ++ "\n")] ∧
    rebootReport 0 = [] :=
  ⟨(reboot_report_iff_nonzero ["p"] fsEmpty 3).2.1 (by decide),
    (reboot_report_iff_nonzero ["p"] fsEmpty 0).1.mpr rfl⟩

/-- C10: the suffix depends only on whether `d_type` equals `DT_DIR`: every
entry with any other type value — known or unknown — is printed as its bare
name with no slash. -/
theorem nondir_entry_bare (e : Dirent) (fs : Fs) (path : String) (es : List Dirent)
    (h1 : e.d_type ≠ DT_DIR) (h2 : fs path = some es) (h3 : e ∈ es) :
    entryLine e = e.d_name ++ "\n" ∧
    Event.out (e.d_name ++ "\n") ∈ showdir fs path := by
  have hline : entryLine e = e.d_name ++ "\n" := by
    simp [entryLine, h1]
  refine ⟨hline, ?_⟩
  have hm := mem_out_readLoop h3
  rw [hline] at hm
  have hs : showdir fs path =
      Event.opendirEv path true ::
        Event.out (("Contents of " ++ path) ++ ":\n") ::
          (readLoop es ++ [Event.closedirEv]) := by
    simp [showdir, h2]
  rw [hs]
  exact List.mem_cons_of_mem _ (List.mem_cons_of_mem _ (List.mem_append_left _ hm))

/-- C10 witness: an entry with the unrecognized type value 3 is printed
bare. -/
theorem nondir_entry_bare_witness :
    entryLine ⟨"mystery", 3⟩ = ("mystery" : String) ++ "\n" ∧
    Event.out (("mystery" : String) ++ "\n") ∈ showdir fsEx ("/") :=
  nondir_entry_bare ⟨"mystery", 3⟩ fsEx ("/") exEntries (by decide) rfl (by decide)

end Testinit
